import Mathlib

/-!
# nowplaying: window discovery and title polling

A shallow embedding of `nowplaying.go`.  The Go program looks for a top-level
window, polls its title and writes the title to a file whenever it changes.

The three things the program cannot decide for itself are inputs of the model:

* what a `GetWindowTextW` system call hands back (`TextCall`, `Screen`);
* which windows `EnumWindows` walks through, and what the call returns
  (`Desktop`);
* whether `ioutil.WriteFile` succeeds (`Cycle.writeErr`).

Everything the program does to the outside world is recorded as a list of
`Event`s, in the order in which it happens.  The two endless `for true` loops
are driven by finite scripts (`List Cycle`, `List Round`): one entry per loop
iteration, and a result that says whether the loop was still running when the
script ended.
-/

namespace NowPlaying

/-! ## Values -/

/-- A window handle, `syscall.Handle` (a `uintptr`); `0` is the zero value of
the variable `handle` in `main`. -/
abbrev Handle := Nat

/-- The Go `error` values the program builds; `nil` is `none : Option Error`. -/
inductive Error where
  /-- The value `error(e1)` for a non-zero `syscall.Errno`. -/
  | errno (e1 : Nat)
  /-- The value `syscall.EINVAL`. -/
  | EINVAL
  /-- The value `fmt.Errorf(msg)`. -/
  | errorf (msg : String)
  deriving DecidableEq, Repr

/-- What one `syscall.Syscall` on `GetWindowTextW` hands back: the first result
`r0`, the error number `e1`, and the contents of the buffer that was passed in, after
the call (UTF-16 code units). -/
structure TextCall where
  r0 : Nat
  e1 : Nat
  buf : List Nat
  deriving DecidableEq, Repr

/-- The window system at one instant, seen through `GetWindowTextW`: for a
handle and a buffer capacity, the outcome of the call. -/
abbrev Screen := Handle → Nat → TextCall

/-- Everything the program does that is visible from outside. -/
inductive Event where
  /-- One `GetWindowTextW` system call on `hwnd`, with what it handed back. -/
  | getWindowText (hwnd : Handle) (res : TextCall)
  /-- One `EnumWindows` system call. -/
  | enumWindows
  /-- One call `ioutil.WriteFile(path, data, 0644)`. -/
  | writeFile (path : String) (data : String)
  /-- One call `time.Sleep(d)`, `d` in nanoseconds. -/
  | sleep (d : Int)
  /-- One line printed on standard error. -/
  | stderr (err : Error)
  deriving DecidableEq, Repr

/-! ## Go conversions and library functions -/

/-- The conversion `int32(r0)` of a `uintptr`: the low 32 bits, read as a
signed number. -/
def int32 (r : Nat) : Int :=
  if r % 2 ^ 32 < 2 ^ 31 then ((r % 2 ^ 32 : Nat) : Int)
  else ((r % 2 ^ 32 : Nat) : Int) - 2 ^ 32

/-- Arithmetic of `time.Duration`, an `int64`: the value wrapped to 64 bits. -/
def int64 (x : Int) : Int := (x + 2 ^ 63) % 2 ^ 64 - 2 ^ 63

/-- The constant `time.Second`, in nanoseconds. -/
def Second : Int := 1000000000

/-- Go `utf16.Decode`: a valid surrogate pair becomes one code point, a lone
surrogate becomes U+FFFD, every other unit is its own code point. -/
def utf16Decode : List Nat → List Char
  | [] => []
  | [r] => if r < 0xd800 ∨ 0xe000 ≤ r then [Char.ofNat r] else [Char.ofNat 0xfffd]
  | r :: r2 :: rest =>
    if r < 0xd800 ∨ 0xe000 ≤ r then Char.ofNat r :: utf16Decode (r2 :: rest)
    else if r < 0xdc00 ∧ 0xdc00 ≤ r2 ∧ r2 < 0xe000 then
      Char.ofNat (0x10000 + (r - 0xd800) * 0x400 + (r2 - 0xdc00)) :: utf16Decode rest
    else Char.ofNat 0xfffd :: utf16Decode (r2 :: rest)

/-- Go `syscall.UTF16ToString`: the units before the first NUL, decoded. -/
def UTF16ToString (s : List Nat) : String :=
  String.mk (utf16Decode (s.takeWhile (fun v => v ≠ 0)))

/-- Go `strings.HasPrefix(s, p)`. -/
def HasPrefix (s p : String) : Bool := p.data.isPrefixOf s.data

/-! ## The program -/

/-- Go `getWindowText`: one `GetWindowTextW` call on `hwnd`.  Returns the
buffer as the call left it, `len = int32(r0)`, and an error exactly when
`len == 0`. -/
def getWindowText (scr : Screen) (hwnd : Handle) (maxCount : Nat) :
    List Nat × Int × Option Error :=
  let c := scr hwnd maxCount
  let len := int32 c.r0
  if len = 0 then
    if c.e1 ≠ 0 then (c.buf, len, some (Error.errno c.e1))
    else (c.buf, len, some Error.EINVAL)
  else (c.buf, len, none)

/-- Go `windowTextToString`.  The parameters `str` and `maxCount` are not used
by the Go function either: it reads into a fresh buffer of 200 units. -/
def windowTextToString (scr : Screen) (handle : Handle) (_str : List Nat) (_maxCount : Nat) :
    String × Option Error :=
  match getWindowText scr handle 200 with
  | (_, _, some _) =>
    ("", some (Error.errorf "Unable to identify window title. Did you close the window?"))
  | (b, _, none) => (UTF16ToString b, none)

/-- Go `logSpotifyWindow`: writes the title to the file.  `writeErr` is what
`ioutil.WriteFile` returns.  The result is the events, the file contents
afterwards, and the error with which `log.Fatal` ends the process, if it does.
What a failed write leaves in the file is not up to the program: the model keeps
the old contents, and nothing below depends on that. -/
def logSpotifyWindow (writeErr : Option Error) (windowTitle npPath : String)
    (file : Option String) : List Event × Option String × Option Error :=
  match writeErr with
  | some err => ([Event.writeFile npPath windowTitle, Event.stderr err], file, some err)
  | none => ([Event.writeFile npPath windowTitle], some windowTitle, none)

/-- How a call of `pollSpotifyWindow` stands when its script is used up. -/
inductive Outcome where
  /-- The loop is still running: it has not returned. -/
  | polling
  /-- The function returned `err` (`none` is Go `nil`). -/
  | returned (err : Option Error)
  /-- The process was ended by `log.Fatal`. -/
  | fatal (err : Error)
  deriving DecidableEq, Repr

/-- The result of running `pollSpotifyWindow` on a script. -/
structure PollResult where
  events : List Event
  file : Option String
  outcome : Outcome
  deriving DecidableEq, Repr

/-- The same result, with `evs` having happened first. -/
def PollResult.after (evs : List Event) (r : PollResult) : PollResult :=
  { r with events := evs ++ r.events }

/-- What the outside world answers during one cycle of the polling loop. -/
structure Cycle where
  /-- The window system when the title is read. -/
  screen : Screen
  /-- What `ioutil.WriteFile` returns, should it be called in this cycle. -/
  writeErr : Option Error

/-- The `for true` loop of `pollSpotifyWindow`, one script entry per cycle,
started with the given `prevTitle` and file contents. -/
def pollLoop (handle : Handle) (sleepDurationSec : Int) (npPath : String) :
    List Cycle → String → Option String → PollResult
  | [], _, file => ⟨[], file, Outcome.polling⟩
  | c :: cs, prevTitle, file =>
    let read := Event.getWindowText handle (c.screen handle 200)
    match windowTextToString c.screen handle [] 200 with
    | (_, some err) => ⟨[read], file, Outcome.returned (some err)⟩
    | (windowTitle, none) =>
      if prevTitle.length = 0 ∨ prevTitle ≠ windowTitle then
        match logSpotifyWindow c.writeErr windowTitle npPath file with
        | (evs, file1, some err) => ⟨read :: evs, file1, Outcome.fatal err⟩
        | (evs, file1, none) =>
          (pollLoop handle sleepDurationSec npPath cs windowTitle file1).after
            (read :: evs ++ [Event.sleep (int64 (int64 sleepDurationSec * Second))])
      else
        (pollLoop handle sleepDurationSec npPath cs prevTitle file).after
          [read, Event.sleep (int64 (int64 sleepDurationSec * Second))]

/-- Go `pollSpotifyWindow`: `prevTitle` starts as the empty string.  The
`return nil` after the loop is never reached, the loop has no `break`. -/
def pollSpotifyWindow (cycles : List Cycle) (handle : Handle) (sleepDurationSec : Int)
    (npPath : String) (file : Option String) : PollResult :=
  pollLoop handle sleepDurationSec npPath cycles "" file

/-- The callback built by Go `makeCallback(&handle)`, called on window `h`
while the variable holds `handle`: the events, the new value of the variable
and the returned code (`1` continue, `0` stop). -/
def makeCallback (scr : Screen) (h : Handle) (handle : Handle) : List Event × Handle × Nat :=
  let read := Event.getWindowText h (scr h 200)
  match getWindowText scr h 200 with
  | (_, _, some _) => ([read], handle, 1)
  | (b, _, none) =>
    let windowTitle := UTF16ToString b
    if HasPrefix windowTitle "Spotify" then ([read], h, 0)
    else ([read], handle, 1)

/-- The platform primitive `EnumWindows`: hands each top-level window to the
callback in turn and stops as soon as the callback returns `0`. -/
def EnumWindows (enumFunc : Handle → Handle → List Event × Handle × Nat) :
    List Handle → Handle → List Event × Handle
  | [], handle => ([], handle)
  | h :: hs, handle =>
    match enumFunc h handle with
    | (evs, handle1, r) =>
      if r = 0 then (evs, handle1)
      else
        let rest := EnumWindows enumFunc hs handle1
        (evs ++ rest.1, rest.2)

/-- The outside world during one `EnumWindows` call. -/
structure Desktop where
  /-- The top-level windows, in the order of enumeration. -/
  windows : List Handle
  /-- The window system when the callback reads titles. -/
  screen : Screen
  /-- The first result of the system call. -/
  r1 : Nat
  /-- The error number of the system call. -/
  e1 : Nat

/-- Go `enumWindows`: the events, the variable `handle` after the callbacks
have run, and the returned error. -/
def enumWindows (d : Desktop) (enumFunc : Handle → Handle → List Event × Handle × Nat)
    (handle : Handle) : List Event × Handle × Option Error :=
  let run := EnumWindows enumFunc d.windows handle
  if d.r1 = 0 then
    if d.e1 ≠ 0 then (Event.enumWindows :: run.1, run.2, some (Error.errno d.e1))
    else (Event.enumWindows :: run.1, run.2, some Error.EINVAL)
  else (Event.enumWindows :: run.1, run.2, none)

/-- The result of Go `findWindow`: the returned pair `(ret, err)`, with the
events and the value `cell` of the variable behind the pointer afterwards. -/
structure Found where
  events : List Event
  cell : Handle
  ret : Handle
  err : Option Error
  deriving DecidableEq, Repr

/-- Go `findWindow`: `handle` is the value behind the pointer on entry. -/
def findWindow (d : Desktop) (title : String)
    (callback : Handle → Handle → List Event × Handle × Nat) (handle : Handle) : Found :=
  match enumWindows d callback handle with
  | (evs, cell, _) =>
    if cell = 0 then
      ⟨evs, cell, 0, some (Error.errorf ("No window with title \x27" ++ title ++ "\x27 found"))⟩
    else ⟨evs, cell, cell, none⟩

/-- What the outside world answers during one iteration of the loop in `main`:
the desktop for `findWindow`, and the script for `pollSpotifyWindow` if it is
called. -/
structure Round where
  desktop : Desktop
  cycles : List Cycle

/-- How `main` stands when its script is used up. -/
inductive Status where
  /-- Still in the loop, or in a `pollSpotifyWindow` that has not returned. -/
  | running
  /-- Ended by `log.Fatal`. -/
  | exited (err : Error)
  deriving DecidableEq, Repr

/-- The result of running the loop of `main` on a script. -/
structure Run where
  events : List Event
  handle : Handle
  file : Option String
  status : Status
  deriving DecidableEq, Repr

/-- The same result, with `evs` having happened first. -/
def Run.after (evs : List Event) (r : Run) : Run :=
  { r with events := evs ++ r.events }

/-- The `for true` loop of `main`, one script entry per iteration; `handle` is
the variable declared before the loop, which only the callback assigns. -/
def mainLoop (title : String) (pollInterval : Int) (npPath : String) :
    List Round → Handle → Option String → Run
  | [], handle, file => ⟨[], handle, file, Status.running⟩
  | r :: rs, handle, file =>
    let f := findWindow r.desktop title (makeCallback r.desktop.screen) handle
    match f.err with
    | some _ => (mainLoop title pollInterval npPath rs f.cell file).after f.events
    | none =>
      let p := pollSpotifyWindow r.cycles f.ret pollInterval npPath file
      match p.outcome with
      | Outcome.polling => ⟨f.events ++ p.events, f.cell, p.file, Status.running⟩
      | Outcome.fatal err => ⟨f.events ++ p.events, f.cell, p.file, Status.exited err⟩
      | Outcome.returned none =>
        (mainLoop title pollInterval npPath rs f.cell p.file).after
          (f.events ++ p.events ++ [Event.sleep (int64 (1 * Second))])
      | Outcome.returned (some err) =>
        (mainLoop title pollInterval npPath rs f.cell p.file).after
          (f.events ++ p.events ++ [Event.stderr err, Event.sleep (int64 (1 * Second))])

/-- Go `main` after flag parsing: `title` is `-t`, `pollInterval` is `-n`,
`npPath` the output path; the variable `handle` starts as `0`. -/
def main (title : String) (pollInterval : Int) (npPath : String) (rounds : List Round)
    (file : Option String) : Run :=
  mainLoop title pollInterval npPath rounds 0 file

/-! ## The platform, for closed examples and for what a title read can be -/

/-- The buffer `GetWindowTextW` leaves behind and the count it returns, by its
documented contract.  `none` is a handle that is no longer a window; `some t`
is a live window whose title bar holds the text `t`.  The text ends at its
first NUL; at most `nMaxCount - 1` units are copied, then a NUL; the count of
copied units is returned, which is `0` for an empty title and for a handle
that is not a window. -/
def GetWindowTextW (w : Option (List Nat)) (nMaxCount : Nat) : TextCall :=
  match w with
  | none => ⟨0, 1400, List.replicate nMaxCount 0⟩
  | some t =>
    let s := (t.takeWhile (fun v => v ≠ 0)).take (nMaxCount - 1)
    ⟨s.length, 0, s ++ List.replicate (nMaxCount - s.length) 0⟩

/-- The screen on which each handle is in the given state. -/
def screenOf (ws : Handle → Option (List Nat)) : Screen :=
  fun h n => GetWindowTextW (ws h) n

/-- Go `utf16.Encode` of the characters of a string: the title text of a
window that shows `s`. -/
def utf16 (s : String) : List Nat :=
  s.data.flatMap (fun c =>
    if c.toNat < 0x10000 then [c.toNat]
    else [0xd800 + (c.toNat - 0x10000) / 0x400, 0xdc00 + (c.toNat - 0x10000) % 0x400])

/-- The `writeFile` events of a trace: the data written, in order. -/
def sinkWrites : List Event → List String
  | [] => []
  | Event.writeFile _ data :: es => data :: sinkWrites es
  | _ :: es => sinkWrites es

/-- The titles read successfully in a trace: for each `getWindowText` event,
what `windowTextToString` made of it, when it gave no error. -/
def titlesRead : List Event → List String
  | [] => []
  | Event.getWindowText h res :: es =>
    match windowTextToString (fun _ _ => res) h [] 200 with
    | (t, none) => t :: titlesRead es
    | (_, some _) => titlesRead es
  | _ :: es => titlesRead es

/-! ## Names for events, errors and example inputs -/

/-- The error that windowTextToString returns for every failed read. -/
def lostTitle : Error :=
  Error.errorf "Unable to identify window title. Did you close the window?"

/-- The event of reading the title of `handle` in cycle `c`. -/
def readEvent (handle : Handle) (c : Cycle) : Event :=
  Event.getWindowText handle (c.screen handle 200)

/-- The sleep at the end of a cycle. -/
def napEvent (sec : Int) : Event := Event.sleep (int64 (int64 sec * Second))

/-- A cycle in which every handle is a live window showing `s`, and the file
can be written. -/
def showing (s : String) : Cycle := ⟨screenOf (fun _ => some (utf16 s)), none⟩

/-- A cycle in which no handle is a window any more. -/
def closed : Cycle := ⟨screenOf (fun _ => none), none⟩

/-- Whether the title of window `h` can be read and starts with "Spotify". -/
def isSpotify (scr : Screen) (h : Handle) : Bool :=
  match windowTextToString scr h [] 200 with
  | (t, none) => HasPrefix t "Spotify"
  | (_, some _) => false

/-- The event of the callback reading the title of window `h`. -/
def lookEvent (scr : Screen) (h : Handle) : Event := Event.getWindowText h (scr h 200)

/-- The error `findWindow` returns when the variable behind the pointer is `0`. -/
def notFound (title : String) : Error :=
  Error.errorf ("No window with title \x27" ++ title ++ "\x27 found")

/-- A desktop with three windows: 1 "Spotify - Track A", 2 "Notepad",
3 "Spotify".  `EnumWindows` returns `0`, as it does when the callback stops it. -/
def threeWindows : Desktop :=
  ⟨[1, 2, 3],
    screenOf (fun h =>
      if h = 1 then some (utf16 "Spotify - Track A")
      else if h = 2 then some (utf16 "Notepad")
      else if h = 3 then some (utf16 "Spotify")
      else none),
    0, 0⟩

/-- A desktop whose only window is 66, showing "Spotify - A". -/
def spotifyOpen : Desktop :=
  ⟨[66], screenOf (fun h => if h = 66 then some (utf16 "Spotify - A") else none), 0, 0⟩

/-- A desktop whose only window is 2, showing "Notepad"; 66 is not a window. -/
def onlyNotepad : Desktop :=
  ⟨[2], screenOf (fun h => if h = 2 then some (utf16 "Notepad") else none), 1, 0⟩

/-- A desktop without windows on which `EnumWindows` fails with error 5. -/
def enumFails : Desktop := ⟨[], screenOf (fun _ => none), 0, 5⟩

/-! ## Facts about the program -/

set_option maxRecDepth 100000

/-! ## Basic facts -/

theorem length_eq_zero_iff (s : String) : s.length = 0 ↔ s = "" := by
  cases s with
  | mk l =>
    constructor
    · intro h
      have : l = [] := List.length_eq_zero.mp h
      subst this
      rfl
    · intro h
      have : l = [] := congrArg String.data h
      subst this
      rfl

theorem windowTextToString_cases (scr : Screen) (h : Handle) (s : List Nat) (m : Nat) :
    windowTextToString scr h s m = ("", some lostTitle) ∨
    windowTextToString scr h s m = (UTF16ToString (scr h 200).buf, none) := by
  unfold windowTextToString getWindowText lostTitle
  by_cases h0 : int32 (scr h 200).r0 = 0
  · by_cases h1 : (scr h 200).e1 = 0 <;> simp [h0, h1]
  · simp [h0]

theorem windowTextToString_err (scr : Screen) (h : Handle) (s : List Nat) (m : Nat)
    (hne : (windowTextToString scr h s m).2 ≠ none) :
    windowTextToString scr h s m = ("", some lostTitle) := by
  rcases windowTextToString_cases scr h s m with h1 | h1
  · exact h1
  · rw [h1] at hne
    exact absurd rfl hne

theorem after_outcome (evs : List Event) (r : PollResult) : (r.after evs).outcome = r.outcome := rfl
theorem after_file (evs : List Event) (r : PollResult) : (r.after evs).file = r.file := rfl
theorem after_events (evs : List Event) (r : PollResult) :
    (r.after evs).events = evs ++ r.events := rfl

theorem pollLoop_nil (handle : Handle) (sec : Int) (npPath p : String) (f : Option String) :
    pollLoop handle sec npPath [] p f = ⟨[], f, Outcome.polling⟩ := rfl

theorem pollLoop_lost (handle : Handle) (sec : Int) (npPath p : String) (f : Option String)
    (c : Cycle) (cs : List Cycle)
    (h : (windowTextToString c.screen handle [] 200).2 ≠ none) :
    pollLoop handle sec npPath (c :: cs) p f =
      ⟨[Event.getWindowText handle (c.screen handle 200)], f,
        Outcome.returned (some lostTitle)⟩ := by
  have h1 := windowTextToString_err _ _ _ _ h
  simp [pollLoop, h1]

theorem pollLoop_write (handle : Handle) (sec : Int) (npPath p : String) (f : Option String)
    (c : Cycle) (cs : List Cycle) (t : String)
    (h : windowTextToString c.screen handle [] 200 = (t, none))
    (hp : p = "" ∨ p ≠ t) (hw : c.writeErr = none) :
    pollLoop handle sec npPath (c :: cs) p f =
      (pollLoop handle sec npPath cs t (some t)).after
        [Event.getWindowText handle (c.screen handle 200), Event.writeFile npPath t,
          Event.sleep (int64 (int64 sec * Second))] := by
  have hp1 : p.length = 0 ∨ p ≠ t := hp.imp (length_eq_zero_iff p).mpr id
  simp [pollLoop, h, logSpotifyWindow, hw, hp1]

theorem pollLoop_fatal (handle : Handle) (sec : Int) (npPath p : String) (f : Option String)
    (c : Cycle) (cs : List Cycle) (t : String) (e : Error)
    (h : windowTextToString c.screen handle [] 200 = (t, none))
    (hp : p = "" ∨ p ≠ t) (hw : c.writeErr = some e) :
    pollLoop handle sec npPath (c :: cs) p f =
      ⟨[Event.getWindowText handle (c.screen handle 200), Event.writeFile npPath t,
          Event.stderr e], f, Outcome.fatal e⟩ := by
  have hp1 : p.length = 0 ∨ p ≠ t := hp.imp (length_eq_zero_iff p).mpr id
  simp [pollLoop, h, logSpotifyWindow, hw, hp1]

theorem pollLoop_same (handle : Handle) (sec : Int) (npPath p : String) (f : Option String)
    (c : Cycle) (cs : List Cycle)
    (h : windowTextToString c.screen handle [] 200 = (p, none))
    (hp : p ≠ "") :
    pollLoop handle sec npPath (c :: cs) p f =
      (pollLoop handle sec npPath cs p f).after
        [Event.getWindowText handle (c.screen handle 200),
          Event.sleep (int64 (int64 sec * Second))] := by
  have hp1 : ¬ (p.length = 0 ∨ p ≠ p) := by
    intro h1
    rcases h1 with h1 | h1
    · exact hp ((length_eq_zero_iff p).mp h1)
    · exact h1 rfl
  simp only [pollLoop, h]
  rw [if_neg hp1]

/-- One cycle of the loop is of one of four kinds: the read fails; the title is
written; the write fails; the title is the remembered one and nothing is
written. -/
theorem pollLoop_cons_cases (handle : Handle) (sec : Int) (npPath p : String)
    (f : Option String) (c : Cycle) (cs : List Cycle) :
    ((windowTextToString c.screen handle [] 200).2 ≠ none ∧
      pollLoop handle sec npPath (c :: cs) p f =
        ⟨[readEvent handle c], f, Outcome.returned (some lostTitle)⟩) ∨
    (∃ t, windowTextToString c.screen handle [] 200 = (t, none) ∧ (p = "" ∨ p ≠ t) ∧
      c.writeErr = none ∧
      pollLoop handle sec npPath (c :: cs) p f =
        (pollLoop handle sec npPath cs t (some t)).after
          [readEvent handle c, Event.writeFile npPath t, napEvent sec]) ∨
    (∃ t e, windowTextToString c.screen handle [] 200 = (t, none) ∧ (p = "" ∨ p ≠ t) ∧
      c.writeErr = some e ∧
      pollLoop handle sec npPath (c :: cs) p f =
        ⟨[readEvent handle c, Event.writeFile npPath t, Event.stderr e], f,
          Outcome.fatal e⟩) ∨
    (windowTextToString c.screen handle [] 200 = (p, none) ∧ p ≠ "" ∧
      pollLoop handle sec npPath (c :: cs) p f =
        (pollLoop handle sec npPath cs p f).after [readEvent handle c, napEvent sec]) := by
  rcases windowTextToString_cases c.screen handle [] 200 with h | h
  · left
    have hne : (windowTextToString c.screen handle [] 200).2 ≠ none := by rw [h]; simp
    exact ⟨hne, pollLoop_lost handle sec npPath p f c cs hne⟩
  · right
    by_cases hp : p = "" ∨ p ≠ UTF16ToString (c.screen handle 200).buf
    · cases hw : c.writeErr with
      | none =>
        left
        exact ⟨_, h, hp, rfl, pollLoop_write handle sec npPath p f c cs _ h hp hw⟩
      | some e =>
        right; left
        exact ⟨_, e, h, hp, rfl, pollLoop_fatal handle sec npPath p f c cs _ e h hp hw⟩
    · right; right
      have hp1 : p ≠ "" := fun h1 => hp (Or.inl h1)
      have hp2 : p = UTF16ToString (c.screen handle 200).buf := by
        by_contra h2
        exact hp (Or.inr h2)
      rw [← hp2] at h
      exact ⟨h, hp1, pollLoop_same handle sec npPath p f c cs h hp1⟩

/-- The loop never returns `nil`. -/
theorem pollLoop_not_nil (handle : Handle) (sec : Int) (npPath : String) (cs : List Cycle) :
    ∀ (p : String) (f : Option String),
      (pollLoop handle sec npPath cs p f).outcome ≠ Outcome.returned none := by
  induction cs with
  | nil => intro p f; simp [pollLoop_nil]
  | cons c cs ih =>
    intro p f
    rcases pollLoop_cons_cases handle sec npPath p f c cs with
      ⟨_, h⟩ | ⟨t, _, _, _, h⟩ | ⟨t, e, _, _, _, h⟩ | ⟨_, _, h⟩
    · rw [h]; simp
    · rw [h, after_outcome]; exact ih _ _
    · rw [h]; simp
    · rw [h, after_outcome]; exact ih _ _

/-- While every read and every write succeeds, the loop keeps running. -/
theorem pollLoop_polling (handle : Handle) (sec : Int) (npPath : String) (cs : List Cycle)
    (hr : ∀ x ∈ cs, (windowTextToString x.screen handle [] 200).2 = none)
    (hw : ∀ x ∈ cs, x.writeErr = none) :
    ∀ (p : String) (f : Option String),
      (pollLoop handle sec npPath cs p f).outcome = Outcome.polling := by
  induction cs with
  | nil => intro p f; rfl
  | cons c cs ih =>
    intro p f
    have ih1 := ih (fun x hx => hr x (List.mem_cons_of_mem _ hx))
      (fun x hx => hw x (List.mem_cons_of_mem _ hx))
    rcases pollLoop_cons_cases handle sec npPath p f c cs with
      ⟨h0, _⟩ | ⟨t, _, _, _, h⟩ | ⟨t, e, _, _, h0, _⟩ | ⟨_, _, h⟩
    · exact absurd (hr c (List.mem_cons_self _ _)) h0
    · rw [h, after_outcome]; exact ih1 _ _
    · rw [hw c (List.mem_cons_self _ _)] at h0; exact absurd h0 (by simp)
    · rw [h, after_outcome]; exact ih1 _ _

/-- A failed read after cycles that all completed: the loop returns the error,
having done what it did in those cycles and one more read, nothing else. -/
theorem pollLoop_append_lost (handle : Handle) (sec : Int) (npPath : String)
    (c : Cycle) (rest : List Cycle)
    (hc : (windowTextToString c.screen handle [] 200).2 ≠ none) (pre : List Cycle) :
    ∀ (p : String) (f : Option String),
      (pollLoop handle sec npPath pre p f).outcome = Outcome.polling →
      pollLoop handle sec npPath (pre ++ c :: rest) p f =
        ⟨(pollLoop handle sec npPath pre p f).events ++ [readEvent handle c],
          (pollLoop handle sec npPath pre p f).file, Outcome.returned (some lostTitle)⟩ := by
  induction pre with
  | nil =>
    intro p f _
    rw [List.nil_append, pollLoop_nil]
    exact pollLoop_lost handle sec npPath p f c rest hc
  | cons x pre ih =>
    intro p f hrun
    rw [List.cons_append]
    rcases pollLoop_cons_cases handle sec npPath p f x pre with
      ⟨_, h⟩ | ⟨t, ht, hp, hw, h⟩ | ⟨t, e, _, _, _, h⟩ | ⟨ht, hp, h⟩
    · rw [h] at hrun; exact absurd hrun (by simp)
    · rw [h, after_outcome] at hrun
      rw [pollLoop_write handle sec npPath p f x (pre ++ c :: rest) t ht hp hw, h,
        ih _ _ hrun]
      simp [PollResult.after, readEvent, napEvent]
    · rw [h] at hrun; exact absurd hrun (by simp)
    · rw [h, after_outcome] at hrun
      rw [pollLoop_same handle sec npPath p f x (pre ++ c :: rest) ht hp, h,
        ih _ _ hrun]
      simp [PollResult.after, readEvent, napEvent]

theorem sinkWrites_append (a b : List Event) :
    sinkWrites (a ++ b) = sinkWrites a ++ sinkWrites b := by
  induction a with
  | nil => rfl
  | cons e a ih => cases e <;> simp [sinkWrites, ih]

theorem titlesRead_append (a b : List Event) :
    titlesRead (a ++ b) = titlesRead a ++ titlesRead b := by
  induction a with
  | nil => rfl
  | cons e a ih =>
    cases e with
    | getWindowText h res =>
      simp only [List.cons_append, titlesRead]
      rcases windowTextToString_cases (fun _ _ => res) h [] 200 with h1 | h1 <;>
        simp [h1, ih]
    | enumWindows => simp [titlesRead, ih]
    | writeFile p d => simp [titlesRead, ih]
    | sleep d => simp [titlesRead, ih]
    | stderr e => simp [titlesRead, ih]

/-- After a last cycle that completed, the file holds the title read in it. -/
theorem pollLoop_file_last (handle : Handle) (sec : Int) (npPath : String) (c : Cycle)
    (pre : List Cycle) :
    ∀ (p : String) (f : Option String), (p ≠ "" → f = some p) →
      (pollLoop handle sec npPath (pre ++ [c]) p f).outcome = Outcome.polling →
      (windowTextToString c.screen handle [] 200).2 = none ∧
      (pollLoop handle sec npPath (pre ++ [c]) p f).file =
        some (windowTextToString c.screen handle [] 200).1 := by
  induction pre with
  | nil =>
    intro p f inv hrun
    rw [List.nil_append] at hrun ⊢
    rcases pollLoop_cons_cases handle sec npPath p f c [] with
      ⟨_, h⟩ | ⟨t, ht, _, _, h⟩ | ⟨t, e, _, _, _, h⟩ | ⟨ht, hp, h⟩
    · rw [h] at hrun; exact absurd hrun (by simp)
    · rw [h, ht, after_file, pollLoop_nil]; exact ⟨rfl, rfl⟩
    · rw [h] at hrun; exact absurd hrun (by simp)
    · rw [h, ht, after_file, pollLoop_nil]; exact ⟨rfl, inv hp⟩
  | cons x pre ih =>
    intro p f inv hrun
    rw [List.cons_append] at hrun ⊢
    rcases pollLoop_cons_cases handle sec npPath p f x (pre ++ [c]) with
      ⟨_, h⟩ | ⟨t, _, _, _, h⟩ | ⟨t, e, _, _, _, h⟩ | ⟨_, _, h⟩
    · rw [h] at hrun; exact absurd hrun (by simp)
    · rw [h, after_outcome] at hrun
      rw [h, after_file]
      exact ih t (some t) (fun _ => rfl) hrun
    · rw [h] at hrun; exact absurd hrun (by simp)
    · rw [h, after_outcome] at hrun
      rw [h, after_file]
      exact ih p f inv hrun

/-- C5: a poll run ends only in failure, at the first failed read.  If the reads
of the cycles `pre` succeed (and the file can be written) and the read of the
next cycle `c` fails, `pollSpotifyWindow` returns a non-nil error in that cycle:
it has done what it does on `pre` alone and one more read, so the sink writes
are those of the cycles before, and nothing scripted after `c` happens.  On no
script does it return `nil`.  With two cycles before the failure that read
different titles, the sink writes are exactly these two titles. -/
theorem poll_ends_at_first_failed_read (handle : Handle) (sec : Int) (npPath : String)
    (file : Option String) (pre : List Cycle) (c : Cycle) (rest : List Cycle)
    (hpre : ∀ x ∈ pre, (windowTextToString x.screen handle [] 200).2 = none)
    (hw : ∀ x ∈ pre, x.writeErr = none)
    (hc : (windowTextToString c.screen handle [] 200).2 ≠ none) :
    (pollSpotifyWindow (pre ++ c :: rest) handle sec npPath file).outcome =
        Outcome.returned (some lostTitle) ∧
    (pollSpotifyWindow (pre ++ c :: rest) handle sec npPath file).events =
        (pollSpotifyWindow pre handle sec npPath file).events ++ [readEvent handle c] ∧
    sinkWrites (pollSpotifyWindow (pre ++ c :: rest) handle sec npPath file).events =
        sinkWrites (pollSpotifyWindow pre handle sec npPath file).events ∧
    (∀ cycles : List Cycle,
      (pollSpotifyWindow cycles handle sec npPath file).outcome ≠ Outcome.returned none) ∧
    (∀ (c1 c2 : Cycle) (t1 t2 : String), pre = [c1, c2] →
      windowTextToString c1.screen handle [] 200 = (t1, none) →
      windowTextToString c2.screen handle [] 200 = (t2, none) → t1 ≠ t2 →
      sinkWrites (pollSpotifyWindow (pre ++ c :: rest) handle sec npPath file).events =
        [t1, t2]) := by
  have hrun := pollLoop_polling handle sec npPath pre hpre hw "" file
  have key := pollLoop_append_lost handle sec npPath c rest hc pre "" file hrun
  have hwr : sinkWrites (pollSpotifyWindow (pre ++ c :: rest) handle sec npPath file).events =
      sinkWrites (pollSpotifyWindow pre handle sec npPath file).events := by
    unfold pollSpotifyWindow
    rw [key]
    simp [sinkWrites_append, readEvent, sinkWrites]
  refine ⟨?_, ?_, hwr, ?_, ?_⟩
  · unfold pollSpotifyWindow; rw [key]
  · unfold pollSpotifyWindow; rw [key]
  · intro cycles
    exact pollLoop_not_nil handle sec npPath cycles "" file
  · intro c1 c2 t1 t2 hp h1 h2 hne
    rw [hwr]
    subst hp
    have w1 : c1.writeErr = none := hw c1 (by simp)
    have w2 : c2.writeErr = none := hw c2 (by simp)
    unfold pollSpotifyWindow
    rw [pollLoop_write handle sec npPath "" file c1 [c2] t1 h1 (Or.inl rfl) w1,
      pollLoop_write handle sec npPath t1 (some t1) c2 [] t2 h2 (Or.inr hne) w2, pollLoop_nil]
    simp [PollResult.after, sinkWrites]

/-- C5, at a concrete input: "Song A", then "Song B", then the window closes, and
a fourth scripted cycle that is never reached. -/
theorem poll_ends_at_first_failed_read_witness :
    (pollSpotifyWindow [showing "Song A", showing "Song B", closed, showing "Song C"]
        7 1 "nowplaying.txt" none).outcome = Outcome.returned (some lostTitle) ∧
    sinkWrites (pollSpotifyWindow [showing "Song A", showing "Song B", closed, showing "Song C"]
        7 1 "nowplaying.txt" none).events = ["Song A", "Song B"] :=
  have h := poll_ends_at_first_failed_read 7 1 "nowplaying.txt" none
    [showing "Song A", showing "Song B"] closed [showing "Song C"]
    (by simp; decide) (by simp; decide) (by decide)
  ⟨h.1, h.2.2.2.2 (showing "Song A") (showing "Song B") "Song A" "Song B" rfl
    (by decide) (by decide) (by decide)⟩

/-- C6: first-read emission.  Whatever the handle and whatever the file holds,
when the first read of a call of `pollSpotifyWindow` succeeds with title `t`,
the first two things the call does are that read and the write of `t` to the
file, and if the write succeeds the file holds `t` at the end of the cycle.
This is so too when the call follows an earlier poll run and starts on the
file that run left, even one that holds `t` already: the remembered title
starts empty in every call. -/
theorem first_read_is_written (handle : Handle) (sec : Int) (npPath : String)
    (file : Option String) (c : Cycle) (cs : List Cycle) (t : String)
    (h : windowTextToString c.screen handle [] 200 = (t, none)) :
    (pollSpotifyWindow (c :: cs) handle sec npPath file).events.take 2 =
      [readEvent handle c, Event.writeFile npPath t] ∧
    (c.writeErr = none →
      (pollSpotifyWindow [c] handle sec npPath file).file = some t) ∧
    (∀ (earlier : List Cycle) (handle0 : Handle),
      (pollSpotifyWindow (c :: cs) handle sec npPath
          (pollSpotifyWindow earlier handle0 sec npPath file).file).events.take 2 =
        [readEvent handle c, Event.writeFile npPath t]) := by
  have first : ∀ f : Option String,
      (pollSpotifyWindow (c :: cs) handle sec npPath f).events.take 2 =
        [readEvent handle c, Event.writeFile npPath t] := by
    intro f
    unfold pollSpotifyWindow
    cases hw : c.writeErr with
    | none =>
      rw [pollLoop_write handle sec npPath "" f c cs t h (Or.inl rfl) hw]
      rfl
    | some e =>
      rw [pollLoop_fatal handle sec npPath "" f c cs t e h (Or.inl rfl) hw]
      rfl
  refine ⟨first file, ?_, fun earlier handle0 => first _⟩
  intro hw
  unfold pollSpotifyWindow
  rw [pollLoop_write handle sec npPath "" file c [] t h (Or.inl rfl) hw]
  rfl

/-- C6, at a concrete input: the file holds "Song A" from an earlier run, and
the first read of the new run is "Song A" again. -/
theorem first_read_is_written_witness :
    (pollSpotifyWindow [showing "Song A", showing "Song A"] 7 1 "nowplaying.txt"
        (some "Song A")).events.take 2 =
      [readEvent 7 (showing "Song A"), Event.writeFile "nowplaying.txt" "Song A"] :=
  (first_read_is_written 7 1 "nowplaying.txt" (some "Song A") (showing "Song A")
    [showing "Song A"] "Song A" (by decide)).1

/-- C7: the sink invariant, with the sink as the contents of the file.  After
a cycle that completed (the loop goes on after it) the file holds exactly the
title read in that cycle.  When a read fails after cycles that completed, the
file is left as it was after them.  For the reads "Spotify - A - 1",
"Spotify - A - 1", "Spotify - A - 2", failure, the file holds
"Spotify - A - 1" after cycles 1 and 2 and "Spotify - A - 2" after cycle 3 and
after the error. -/
theorem sink_holds_last_title (handle : Handle) (sec : Int) (npPath : String)
    (file : Option String) :
    (∀ (pre : List Cycle) (c : Cycle),
      (pollSpotifyWindow (pre ++ [c]) handle sec npPath file).outcome = Outcome.polling →
      (windowTextToString c.screen handle [] 200).2 = none ∧
      (pollSpotifyWindow (pre ++ [c]) handle sec npPath file).file =
        some (windowTextToString c.screen handle [] 200).1) ∧
    (∀ (pre : List Cycle) (c : Cycle) (rest : List Cycle),
      (pollSpotifyWindow pre handle sec npPath file).outcome = Outcome.polling →
      (windowTextToString c.screen handle [] 200).2 ≠ none →
      (pollSpotifyWindow (pre ++ c :: rest) handle sec npPath file).outcome =
        Outcome.returned (some lostTitle) ∧
      (pollSpotifyWindow (pre ++ c :: rest) handle sec npPath file).file =
        (pollSpotifyWindow pre handle sec npPath file).file) ∧
    (pollSpotifyWindow [showing "Spotify - A - 1"] handle sec npPath file).file =
        some "Spotify - A - 1" ∧
    (pollSpotifyWindow [showing "Spotify - A - 1", showing "Spotify - A - 1"]
        handle sec npPath file).file = some "Spotify - A - 1" ∧
    (pollSpotifyWindow [showing "Spotify - A - 1", showing "Spotify - A - 1",
        showing "Spotify - A - 2"] handle sec npPath file).file = some "Spotify - A - 2" ∧
    (pollSpotifyWindow [showing "Spotify - A - 1", showing "Spotify - A - 1",
        showing "Spotify - A - 2", closed] handle sec npPath file).file =
      some "Spotify - A - 2" := by
  refine ⟨?_, ?_, ?_, ?_, ?_, ?_⟩
  · intro pre c hrun
    exact pollLoop_file_last handle sec npPath c pre "" file (fun h => absurd rfl h) hrun
  · intro pre c rest hrun hc
    have key := pollLoop_append_lost handle sec npPath c rest hc pre "" file hrun
    unfold pollSpotifyWindow at hrun ⊢
    rw [key]
    exact ⟨rfl, rfl⟩
  · rfl
  · rfl
  · rfl
  · rfl

/-- C7, at a concrete input: the file after the cycle that reads "Song B", and
after the failed read that follows. -/
theorem sink_holds_last_title_witness :
    (pollSpotifyWindow ([showing "Song A"] ++ [showing "Song B"]) 7 1 "nowplaying.txt"
        none).file = some "Song B" ∧
    (pollSpotifyWindow ([showing "Song A", showing "Song B"] ++ closed :: []) 7 1
        "nowplaying.txt" none).file = some "Song B" :=
  have h := sink_holds_last_title 7 1 "nowplaying.txt" none
  ⟨(h.1 [showing "Song A"] (showing "Song B") (by decide)).2,
    ((h.2.1 [showing "Song A", showing "Song B"] closed [] (by decide) (by decide)).2).trans
      (by decide)⟩

theorem utf16Decode_ne_nil (a : Nat) (l : List Nat) : utf16Decode (a :: l) ≠ [] := by
  cases l with
  | nil =>
    unfold utf16Decode
    split <;> simp
  | cons b l =>
    unfold utf16Decode
    split
    · simp
    · split <;> simp

theorem UTF16ToString_ne_empty (a : Nat) (l : List Nat) (ha : a ≠ 0) :
    UTF16ToString (a :: l) ≠ "" := by
  intro h
  have h1 : (UTF16ToString (a :: l)).data = [] := congrArg String.data h
  unfold UTF16ToString at h1
  rw [List.takeWhile_cons_of_pos (by simpa using ha)] at h1
  exact utf16Decode_ne_nil _ _ h1

theorem windowTextToString_ok (scr : Screen) (h : Handle) (s : List Nat) (m : Nat) (t : String)
    (hok : windowTextToString scr h s m = (t, none)) :
    int32 (scr h 200).r0 ≠ 0 ∧ t = UTF16ToString (scr h 200).buf := by
  constructor
  · intro h0
    unfold windowTextToString getWindowText at hok
    by_cases h1 : (scr h 200).e1 = 0 <;> simp [h0, h1] at hok
  · rcases windowTextToString_cases scr h s m with h1 | h1
    · rw [h1] at hok
      exact absurd (congrArg Prod.snd hok) (by simp)
    · rw [h1] at hok
      exact (congrArg Prod.fst hok).symm

/-- On the platform, a title that was read successfully is never empty:
`GetWindowTextW` returns `0` for an empty title, and `getWindowText` makes an
error of that. -/
theorem screenOf_title_ne_empty (ws : Handle → Option (List Nat)) (h : Handle)
    (s : List Nat) (m : Nat) (t : String)
    (hok : windowTextToString (screenOf ws) h s m = (t, none)) : t ≠ "" := by
  obtain ⟨h0, ht⟩ := windowTextToString_ok _ _ _ _ _ hok
  subst ht
  unfold screenOf GetWindowTextW at h0 ⊢
  cases hw : ws h with
  | none =>
    rw [hw] at h0
    exact absurd rfl h0
  | some title =>
    rw [hw] at h0
    simp only at h0 ⊢
    cases hs : List.take (200 - 1) (List.takeWhile (fun v => decide (v ≠ 0)) title) with
    | nil =>
      rw [hs] at h0
      exact absurd rfl h0
    | cons a l =>
      have hmem : a ∈ List.takeWhile (fun v => decide (v ≠ 0)) title := by
        have : a ∈ List.take (200 - 1) (List.takeWhile (fun v => decide (v ≠ 0)) title) := by
          rw [hs]; exact List.mem_cons_self _ _
        exact List.mem_of_mem_take this
      have ha : a ≠ 0 := by
        have := List.mem_takeWhile_imp hmem
        simpa using this
      rw [List.cons_append]
      exact UTF16ToString_ne_empty a _ ha

theorem titlesRead_read_ok (handle : Handle) (c : Cycle) (es : List Event) (t : String)
    (h : windowTextToString c.screen handle [] 200 = (t, none)) :
    titlesRead (readEvent handle c :: es) = t :: titlesRead es := by
  have h1 : windowTextToString (fun _ _ => c.screen handle 200) handle [] 200 = (t, none) := h
  simp [readEvent, titlesRead, h1]

theorem titlesRead_read_lost (handle : Handle) (c : Cycle) (es : List Event)
    (h : (windowTextToString c.screen handle [] 200).2 ≠ none) :
    titlesRead (readEvent handle c :: es) = titlesRead es := by
  have h1 : windowTextToString (fun _ _ => c.screen handle 200) handle [] 200 =
      ("", some lostTitle) := windowTextToString_err _ _ _ _ h
  simp [readEvent, titlesRead, h1]

/-- The sink writes of the loop, when no title read successfully is empty: the
titles read with consecutive duplicates collapsed, the remembered title counting
as read just before when it is not empty. -/
theorem pollLoop_writes (handle : Handle) (sec : Int) (npPath : String) (cs : List Cycle)
    (hne : ∀ x ∈ cs, ∀ t, windowTextToString x.screen handle [] 200 = (t, none) → t ≠ "") :
    ∀ (p : String) (f : Option String),
      (p = "" → sinkWrites (pollLoop handle sec npPath cs p f).events =
        (titlesRead (pollLoop handle sec npPath cs p f).events).destutter (fun a b => a ≠ b)) ∧
      (p ≠ "" → p :: sinkWrites (pollLoop handle sec npPath cs p f).events =
        (titlesRead (pollLoop handle sec npPath cs p f).events).destutter'
          (fun a b => a ≠ b) p) := by
  induction cs with
  | nil =>
    intro p f
    simp [pollLoop_nil, sinkWrites, titlesRead]
  | cons c cs ih =>
    intro p f
    have ih1 := ih (fun x hx => hne x (List.mem_cons_of_mem _ hx))
    rcases pollLoop_cons_cases handle sec npPath p f c cs with
      ⟨h0, h⟩ | ⟨t, ht, hp, _, h⟩ | ⟨t, e, ht, hp, _, h⟩ | ⟨ht, hp, h⟩
    · rw [h]
      dsimp only
      rw [titlesRead_read_lost handle c [] h0]
      simp [sinkWrites, readEvent, titlesRead]
    · have htne : t ≠ "" := hne c (List.mem_cons_self _ _) t ht
      have ih2 := (ih1 t (some t)).2 htne
      rw [h, after_events]
      simp only [List.cons_append, List.nil_append]
      rw [titlesRead_read_ok handle c _ t ht]
      simp only [sinkWrites, titlesRead, napEvent]
      constructor
      · intro _
        rw [List.destutter_cons', ih2]
      · intro hpne
        have hpt : p ≠ t := hp.resolve_left hpne
        rw [List.destutter'_cons_pos _ hpt, ih2]
    · have htne : t ≠ "" := hne c (List.mem_cons_self _ _) t ht
      rw [h]
      simp only
      rw [titlesRead_read_ok handle c _ t ht]
      simp only [sinkWrites, titlesRead]
      constructor
      · intro _
        simp
      · intro hpne
        have hpt : p ≠ t := hp.resolve_left hpne
        simp [List.destutter', hpt]
    · have ih2 := (ih1 p f).2 hp
      rw [h, after_events]
      simp only [List.cons_append, List.nil_append]
      rw [titlesRead_read_ok handle c _ p ht]
      simp only [sinkWrites, titlesRead, napEvent]
      constructor
      · intro hpe
        exact absurd hpe hp
      · intro _
        rw [List.destutter'_cons_neg _ (by simp), ih2]

/-- While the title read stays the remembered one, the loop only reads and
sleeps. -/
theorem pollLoop_replicate (handle : Handle) (sec : Int) (npPath : String) (c : Cycle)
    (t : String) (f : Option String)
    (ht : windowTextToString c.screen handle [] 200 = (t, none)) (hne : t ≠ "") (n : Nat) :
    pollLoop handle sec npPath (List.replicate n c) t f =
      ⟨(List.replicate n [readEvent handle c, napEvent sec]).flatten, f, Outcome.polling⟩ := by
  induction n with
  | zero => rfl
  | succ n ih =>
    rw [List.replicate_succ, pollLoop_same handle sec npPath t f c _ ht hne, ih]
    simp [PollResult.after, List.replicate_succ, readEvent, napEvent]

/-- C1: idempotent suppression.  For every sequence of window states, one per
cycle (for each handle: no window, or a window with some title text), and
whatever the file writes return, the titles `pollSpotifyWindow` writes to the
sink are the titles it read successfully with consecutive duplicates collapsed.
A title read in `n + 1` consecutive cycles from the start of a run is written
once, in the first of them; the other `n` cycles only read and sleep. -/
theorem writes_are_titles_collapsed (handle : Handle) (sec : Int) (npPath : String)
    (file : Option String) :
    (∀ script : List ((Handle → Option (List Nat)) × Option Error),
      sinkWrites (pollSpotifyWindow (script.map (fun x => (⟨screenOf x.1, x.2⟩ : Cycle)))
          handle sec npPath file).events =
        (titlesRead (pollSpotifyWindow (script.map (fun x => (⟨screenOf x.1, x.2⟩ : Cycle)))
          handle sec npPath file).events).destutter (fun a b => a ≠ b)) ∧
    (∀ (ws : Handle → Option (List Nat)) (t : String) (n : Nat),
      windowTextToString (screenOf ws) handle [] 200 = (t, none) →
      (pollSpotifyWindow (List.replicate (n + 1) ⟨screenOf ws, none⟩)
          handle sec npPath file).events =
        readEvent handle ⟨screenOf ws, none⟩ :: Event.writeFile npPath t :: napEvent sec ::
          (List.replicate n [readEvent handle ⟨screenOf ws, none⟩, napEvent sec]).flatten ∧
      sinkWrites (pollSpotifyWindow (List.replicate (n + 1) ⟨screenOf ws, none⟩)
          handle sec npPath file).events = [t]) := by
  constructor
  · intro script
    refine (pollLoop_writes handle sec npPath _ ?_ "" file).1 rfl
    intro x hx t ht
    obtain ⟨y, _, rfl⟩ := List.mem_map.mp hx
    exact screenOf_title_ne_empty y.1 handle [] 200 t ht
  · intro ws t n ht
    have hne : t ≠ "" := screenOf_title_ne_empty ws handle [] 200 t ht
    have hev : (pollSpotifyWindow (List.replicate (n + 1) ⟨screenOf ws, none⟩)
          handle sec npPath file).events =
        readEvent handle ⟨screenOf ws, none⟩ :: Event.writeFile npPath t :: napEvent sec ::
          (List.replicate n [readEvent handle ⟨screenOf ws, none⟩, napEvent sec]).flatten := by
      unfold pollSpotifyWindow
      rw [List.replicate_succ,
        pollLoop_write handle sec npPath "" file ⟨screenOf ws, none⟩ _ t ht (Or.inl rfl) rfl,
        pollLoop_replicate handle sec npPath ⟨screenOf ws, none⟩ t (some t) ht hne n]
      rfl
    refine ⟨hev, ?_⟩
    rw [hev]
    have hrep : ∀ k : Nat, sinkWrites
        (List.replicate k [readEvent handle ⟨screenOf ws, none⟩, napEvent sec]).flatten = [] := by
      intro k
      induction k with
      | zero => rfl
      | succ k ih =>
        rw [List.replicate_succ, List.flatten_cons, sinkWrites_append, ih]
        rfl
    show t :: sinkWrites
      (List.replicate n [readEvent handle ⟨screenOf ws, none⟩, napEvent sec]).flatten = [t]
    rw [hrep n]

/-- C1, at a concrete input: "Song A" shown for three cycles in a row. -/
theorem writes_are_titles_collapsed_witness :
    sinkWrites (pollSpotifyWindow (List.replicate (2 + 1)
      ⟨screenOf (fun _ => some (utf16 "Song A")), none⟩) 7 1 "nowplaying.txt" none).events =
      ["Song A"] :=
  ((writes_are_titles_collapsed 7 1 "nowplaying.txt" none).2
    (fun _ => some (utf16 "Song A")) "Song A" 2 (by decide)).2

theorem makeCallback_skip (scr : Screen) (h cell : Handle) (hs : isSpotify scr h = false) :
    makeCallback scr h cell = ([lookEvent scr h], cell, 1) := by
  unfold isSpotify windowTextToString at hs
  unfold makeCallback lookEvent
  unfold getWindowText at hs ⊢
  by_cases h0 : int32 (scr h 200).r0 = 0
  · by_cases h1 : (scr h 200).e1 = 0 <;> simp [h0, h1]
  · simp [h0] at hs ⊢
    simp [hs]

theorem makeCallback_hit (scr : Screen) (h cell : Handle) (hs : isSpotify scr h = true) :
    makeCallback scr h cell = ([lookEvent scr h], h, 0) := by
  unfold isSpotify windowTextToString at hs
  unfold makeCallback lookEvent
  unfold getWindowText at hs ⊢
  by_cases h0 : int32 (scr h 200).r0 = 0
  · by_cases h1 : (scr h 200).e1 = 0 <;> simp [h0, h1] at hs
  · simp [h0] at hs ⊢
    simp [hs]

/-- Windows that do not match are all passed to the callback, and the variable
keeps its value. -/
theorem EnumWindows_skip (scr : Screen) (ws : List Handle) (cell : Handle)
    (hs : ∀ x ∈ ws, isSpotify scr x = false) :
    EnumWindows (makeCallback scr) ws cell = (ws.map (lookEvent scr), cell) := by
  induction ws with
  | nil => rfl
  | cons w ws ih =>
    have ih1 := ih (fun x hx => hs x (List.mem_cons_of_mem _ hx))
    simp [EnumWindows, makeCallback_skip scr w cell (hs w (List.mem_cons_self _ _)), ih1]

/-- The enumeration stops at the first window that matches. -/
theorem EnumWindows_hit (scr : Screen) (pre : List Handle) (h : Handle) (post : List Handle)
    (cell : Handle) (hs : ∀ x ∈ pre, isSpotify scr x = false) (hh : isSpotify scr h = true) :
    EnumWindows (makeCallback scr) (pre ++ h :: post) cell =
      ((pre ++ [h]).map (lookEvent scr), h) := by
  induction pre with
  | nil => simp [EnumWindows, makeCallback_hit scr h cell hh]
  | cons w pre ih =>
    have ih1 := ih (fun x hx => hs x (List.mem_cons_of_mem _ hx))
    simp [EnumWindows, makeCallback_skip scr w cell (hs w (List.mem_cons_self _ _)), ih1]

theorem findWindow_eq (d : Desktop) (title : String)
    (cb : Handle → Handle → List Event × Handle × Nat) (handle : Handle) :
    findWindow d title cb handle =
      if (EnumWindows cb d.windows handle).2 = 0 then
        ⟨Event.enumWindows :: (EnumWindows cb d.windows handle).1, 0, 0, some (notFound title)⟩
      else
        ⟨Event.enumWindows :: (EnumWindows cb d.windows handle).1,
          (EnumWindows cb d.windows handle).2, (EnumWindows cb d.windows handle).2, none⟩ := by
  unfold findWindow enumWindows notFound
  by_cases h1 : d.r1 = 0
  · by_cases h2 : d.e1 = 0
    · by_cases h3 : (EnumWindows cb d.windows handle).2 = 0 <;> simp [h1, h2, h3]
    · by_cases h3 : (EnumWindows cb d.windows handle).2 = 0 <;> simp [h1, h2, h3]
  · by_cases h3 : (EnumWindows cb d.windows handle).2 = 0 <;> simp [h1, h3]

/-- C10: discovery picks the first readable match and skips the other windows.
On a window whose title cannot be read or does not start with "Spotify" the
callback returns 1 (continue) and leaves the variable as it is; on a window
whose title is read and starts with "Spotify" it returns 0 (stop) and stores
the handle.  So, started with the variable at zero on windows `pre ++ h :: post`
where `h` is the first such window (window handles are not zero), `findWindow`
returns `h` without error, having looked at the windows `pre` and `h` and at
none of `post`.  When no window is such a window it returns the not-found
error, having looked at all of them. -/
theorem discovery_picks_first_match (d : Desktop) (title : String) :
    (∀ h cell : Handle, isSpotify d.screen h = false →
      makeCallback d.screen h cell = ([lookEvent d.screen h], cell, 1)) ∧
    (∀ h cell : Handle, isSpotify d.screen h = true →
      makeCallback d.screen h cell = ([lookEvent d.screen h], h, 0)) ∧
    (∀ (pre : List Handle) (h : Handle) (post : List Handle),
      d.windows = pre ++ h :: post → (∀ x ∈ pre, isSpotify d.screen x = false) →
      isSpotify d.screen h = true → h ≠ 0 →
      findWindow d title (makeCallback d.screen) 0 =
        ⟨Event.enumWindows :: (pre ++ [h]).map (lookEvent d.screen), h, h, none⟩) ∧
    ((∀ x ∈ d.windows, isSpotify d.screen x = false) →
      findWindow d title (makeCallback d.screen) 0 =
        ⟨Event.enumWindows :: d.windows.map (lookEvent d.screen), 0, 0,
          some (notFound title)⟩) := by
  refine ⟨fun h cell hs => makeCallback_skip d.screen h cell hs,
    fun h cell hs => makeCallback_hit d.screen h cell hs, ?_, ?_⟩
  · intro pre h post hw hs hh hnz
    rw [findWindow_eq, hw, EnumWindows_hit d.screen pre h post 0 hs hh]
    simp [hnz]
  · intro hs
    rw [findWindow_eq, EnumWindows_skip d.screen d.windows 0 hs]
    simp

/-- C10, at a concrete input: windows "Notepad" (2), "Spotify - Track A" (1),
"Spotify" (3), in this order; window 1 is returned and window 3 is not looked
at. -/
theorem discovery_picks_first_match_witness :
    findWindow { threeWindows with windows := [2, 1, 3] } "Spotify"
        (makeCallback threeWindows.screen) 0 =
      ⟨[Event.enumWindows, lookEvent threeWindows.screen 2, lookEvent threeWindows.screen 1],
        1, 1, none⟩ :=
  (discovery_picks_first_match { threeWindows with windows := [2, 1, 3] } "Spotify").2.2.1
    [2] 1 [3] rfl (by decide) (by decide) (by decide)

theorem run_after_status (evs : List Event) (r : Run) : (r.after evs).status = r.status := rfl

/-- When every write succeeds, the loop is not ended by `log.Fatal`. -/
theorem pollLoop_not_fatal (handle : Handle) (sec : Int) (npPath : String) (cs : List Cycle)
    (hw : ∀ x ∈ cs, x.writeErr = none) :
    ∀ (p : String) (f : Option String) (e : Error),
      (pollLoop handle sec npPath cs p f).outcome ≠ Outcome.fatal e := by
  induction cs with
  | nil => intro p f e; simp [pollLoop_nil]
  | cons c cs ih =>
    intro p f e
    have ih1 := ih (fun x hx => hw x (List.mem_cons_of_mem _ hx))
    rcases pollLoop_cons_cases handle sec npPath p f c cs with
      ⟨_, h⟩ | ⟨t, _, _, _, h⟩ | ⟨t, e1, _, _, h0, _⟩ | ⟨_, _, h⟩
    · rw [h]; simp
    · rw [h, after_outcome]; exact ih1 _ _ _
    · rw [hw c (List.mem_cons_self _ _)] at h0; exact absurd h0 (by simp)
    · rw [h, after_outcome]; exact ih1 _ _ _

/-- When every write succeeds, the loop of `main` is never left. -/
theorem mainLoop_running (title : String) (pollInterval : Int) (npPath : String)
    (rounds : List Round) (hw : ∀ r ∈ rounds, ∀ c ∈ r.cycles, c.writeErr = none) :
    ∀ (handle : Handle) (file : Option String),
      (mainLoop title pollInterval npPath rounds handle file).status = Status.running := by
  induction rounds with
  | nil => intro handle file; rfl
  | cons r rs ih =>
    intro handle file
    have ih1 := ih (fun x hx => hw x (List.mem_cons_of_mem _ hx))
    have hr := hw r (List.mem_cons_self _ _)
    unfold mainLoop
    simp only
    split
    · rw [run_after_status]; exact ih1 _ _
    · split
      · rfl
      · rename_i e he
        exact absurd he (pollLoop_not_fatal _ _ _ _ hr _ _ e)
      · rw [run_after_status]; exact ih1 _ _
      · rw [run_after_status]; exact ih1 _ _

/-- C2, at the failing input: the variable still holds 66 from an earlier
discovery, window 66 is gone and the only window shows "Notepad".  `findWindow`
returns the stale handle 66 and no error.  In `main`: after 66 was found and
lost, the next iteration polls 66 again. -/
theorem findWindow_returns_stale_handle :
    isSpotify onlyNotepad.screen 2 = false ∧
    findWindow onlyNotepad "Spotify" (makeCallback onlyNotepad.screen) 66 =
      ⟨[Event.enumWindows, lookEvent onlyNotepad.screen 2], 66, 66, none⟩ ∧
    (main "Spotify" 1 "nowplaying.txt"
        [⟨spotifyOpen, [⟨onlyNotepad.screen, none⟩]⟩, ⟨onlyNotepad, [⟨onlyNotepad.screen, none⟩]⟩]
        none).events =
      [Event.enumWindows, lookEvent spotifyOpen.screen 66,
        Event.getWindowText 66 (onlyNotepad.screen 66 200), Event.stderr lostTitle,
        Event.sleep 1000000000,
        Event.enumWindows, lookEvent onlyNotepad.screen 2,
        Event.getWindowText 66 (onlyNotepad.screen 66 200), Event.stderr lostTitle,
        Event.sleep 1000000000] := by
  refine ⟨by decide, by decide, by decide⟩

/-- C3, at the failing input: `-t Notepad`, windows 1 "Spotify - Track A",
2 "Notepad", 3 "Spotify".  `findWindow` returns window 1, whose title does not
start with "Notepad"; window 2 is not looked at. -/
theorem findWindow_ignores_title_flag :
    findWindow threeWindows "Notepad" (makeCallback threeWindows.screen) 0 =
      ⟨[Event.enumWindows, lookEvent threeWindows.screen 1], 1, 1, none⟩ ∧
    windowTextToString threeWindows.screen 1 [] 200 = ("Spotify - Track A", none) ∧
    HasPrefix "Spotify - Track A" "Notepad" = false ∧
    windowTextToString threeWindows.screen 2 [] 200 = ("Notepad", none) := by
  refine ⟨by decide, by decide, by decide, by decide⟩

/-- C4 fails as stated: after "Song A" the title becomes empty.  Nothing is
written in that cycle and the poll run ends with the error of a failed read;
the run does not write the empty string and go on. -/
theorem empty_title_ends_poll :
    windowTextToString (showing "").screen 7 [] 200 = ("", some lostTitle) ∧
    sinkWrites (pollSpotifyWindow [showing "Song A", showing ""] 7 1 "nowplaying.txt"
      none).events = ["Song A"] ∧
    (pollSpotifyWindow [showing "Song A", showing ""] 7 1 "nowplaying.txt" none).outcome =
      Outcome.returned (some lostTitle) ∧
    (pollSpotifyWindow [showing "Song A", showing ""] 7 1 "nowplaying.txt" none).file =
      some "Song A" ∧
    ¬ (sinkWrites (pollSpotifyWindow [showing "Song A", showing ""] 7 1 "nowplaying.txt"
        none).events = ["Song A", ""] ∧
      (pollSpotifyWindow [showing "Song A", showing ""] 7 1 "nowplaying.txt" none).outcome =
        Outcome.polling) := by
  refine ⟨by decide, by decide, by decide, by decide, by decide⟩

/-- C4, amended: a window whose title is the empty string cannot be read.
`GetWindowTextW` returns length `0`, `getWindowText` reports an error, and
`pollSpotifyWindow`, after cycles that completed, writes nothing in that
cycle and returns the error of a failed read; the file stays as it was. -/
theorem empty_title_is_failed_read (handle : Handle) (sec : Int) (npPath : String)
    (file : Option String) (ws : Handle → Option (List Nat)) (w : Option Error)
    (pre rest : List Cycle) (hempty : ws handle = some [])
    (hrun : (pollSpotifyWindow pre handle sec npPath file).outcome = Outcome.polling) :
    windowTextToString (screenOf ws) handle [] 200 = ("", some lostTitle) ∧
    pollSpotifyWindow (pre ++ ⟨screenOf ws, w⟩ :: rest) handle sec npPath file =
      ⟨(pollSpotifyWindow pre handle sec npPath file).events ++
          [readEvent handle ⟨screenOf ws, w⟩],
        (pollSpotifyWindow pre handle sec npPath file).file,
        Outcome.returned (some lostTitle)⟩ ∧
    sinkWrites (pollSpotifyWindow (pre ++ ⟨screenOf ws, w⟩ :: rest) handle sec npPath
        file).events = sinkWrites (pollSpotifyWindow pre handle sec npPath file).events := by
  have hread : windowTextToString (screenOf ws) handle [] 200 = ("", some lostTitle) := by
    unfold windowTextToString getWindowText screenOf
    rw [hempty]
    rfl
  have hc : (windowTextToString (⟨screenOf ws, w⟩ : Cycle).screen handle [] 200).2 ≠ none := by
    show (windowTextToString (screenOf ws) handle [] 200).2 ≠ none
    rw [hread]
    simp
  have key := pollLoop_append_lost handle sec npPath ⟨screenOf ws, w⟩ rest hc pre "" file hrun
  refine ⟨hread, key, ?_⟩
  unfold pollSpotifyWindow
  rw [key]
  simp [sinkWrites_append, readEvent, sinkWrites]

/-- C4 amended, at a concrete input: "Song A", then the empty title. -/
theorem empty_title_is_failed_read_witness :
    pollSpotifyWindow ([showing "Song A"] ++ ⟨screenOf (fun _ => some []), none⟩ :: [])
        7 1 "nowplaying.txt" none =
      ⟨(pollSpotifyWindow [showing "Song A"] 7 1 "nowplaying.txt" none).events ++
          [readEvent 7 ⟨screenOf (fun _ => some []), none⟩],
        (pollSpotifyWindow [showing "Song A"] 7 1 "nowplaying.txt" none).file,
        Outcome.returned (some lostTitle)⟩ :=
  (empty_title_is_failed_read 7 1 "nowplaying.txt" none (fun _ => some []) none
    [showing "Song A"] [] rfl (by decide)).2.1

/-- C8, at the failing input: no window matches in three iterations in a row.
`main` calls `EnumWindows` three times with no sleep in between. -/
theorem not_found_retry_without_sleep :
    (main "Spotify" 1 "nowplaying.txt"
        [⟨onlyNotepad, []⟩, ⟨onlyNotepad, []⟩, ⟨onlyNotepad, []⟩] none).events =
      [Event.enumWindows, lookEvent onlyNotepad.screen 2,
        Event.enumWindows, lookEvent onlyNotepad.screen 2,
        Event.enumWindows, lookEvent onlyNotepad.screen 2] ∧
    (findWindow onlyNotepad "Spotify" (makeCallback onlyNotepad.screen) 0).err =
      some (notFound "Spotify") := by
  refine ⟨by decide, by decide⟩

/-- C9 fails as stated: `enumWindows` returns an error, `findWindow` returns
the ordinary not-found error instead (or, when a window was stored, the handle
and no error), and `main` goes on to the next iteration. -/
theorem enum_error_is_dropped :
    (enumWindows enumFails (makeCallback enumFails.screen) 0).2.2 = some (Error.errno 5) ∧
    (findWindow enumFails "Spotify" (makeCallback enumFails.screen) 0).err =
      some (notFound "Spotify") ∧
    (main "Spotify" 1 "nowplaying.txt" [⟨enumFails, []⟩, ⟨enumFails, []⟩] none) =
      ⟨[Event.enumWindows, Event.enumWindows], 0, none, Status.running⟩ ∧
    (enumWindows spotifyOpen (makeCallback spotifyOpen.screen) 0).2.2 = some Error.EINVAL ∧
    (findWindow spotifyOpen "Spotify" (makeCallback spotifyOpen.screen) 0).ret = 66 ∧
    (findWindow spotifyOpen "Spotify" (makeCallback spotifyOpen.screen) 0).err = none := by
  refine ⟨by decide, by decide, by decide, by decide, by decide, by decide⟩

/-- C9, amended: `findWindow` drops what `enumWindows` returns.  Its result is
the same whatever the system call returned, and is decided by the variable
behind the pointer alone: the not-found error when it is zero, its value and
no error otherwise.  In `main`, as long as the file can be written, the loop
is never left, whatever the `EnumWindows` calls return. -/
theorem findWindow_drops_enum_error (d : Desktop) (title : String)
    (cb : Handle → Handle → List Event × Handle × Nat) (handle : Handle) :
    (∀ r1 e1 : Nat,
      findWindow ⟨d.windows, d.screen, r1, e1⟩ title cb handle = findWindow d title cb handle) ∧
    ((findWindow d title cb handle).cell = (EnumWindows cb d.windows handle).2) ∧
    ((findWindow d title cb handle).cell = 0 →
      (findWindow d title cb handle).ret = 0 ∧
      (findWindow d title cb handle).err = some (notFound title)) ∧
    ((findWindow d title cb handle).cell ≠ 0 →
      (findWindow d title cb handle).ret = (findWindow d title cb handle).cell ∧
      (findWindow d title cb handle).err = none) ∧
    (∀ (pollInterval : Int) (npPath : String) (rounds : List Round) (file : Option String),
      (∀ r ∈ rounds, ∀ c ∈ r.cycles, c.writeErr = none) →
      (main title pollInterval npPath rounds file).status = Status.running) := by
  refine ⟨?_, ?_, ?_, ?_, ?_⟩
  · intro r1 e1
    rw [findWindow_eq, findWindow_eq]
  · rw [findWindow_eq]
    by_cases h : (EnumWindows cb d.windows handle).2 = 0 <;> simp [h]
  · rw [findWindow_eq]
    by_cases h : (EnumWindows cb d.windows handle).2 = 0 <;> simp [h]
  · rw [findWindow_eq]
    by_cases h : (EnumWindows cb d.windows handle).2 = 0 <;> simp [h]
  · intro pollInterval npPath rounds file hw
    exact mainLoop_running title pollInterval npPath rounds hw 0 file

/-- C9 amended, at a concrete input: two iterations on a desktop where
`EnumWindows` fails. -/
theorem findWindow_drops_enum_error_witness :
    (main "Spotify" 1 "nowplaying.txt" [⟨enumFails, []⟩, ⟨enumFails, [closed]⟩] none).status =
      Status.running :=
  (findWindow_drops_enum_error enumFails "Spotify" (makeCallback enumFails.screen) 0).2.2.2.2
    1 "nowplaying.txt" [⟨enumFails, []⟩, ⟨enumFails, [closed]⟩] none (by decide)

end NowPlaying
